import Mathlib

/-!
Verification of the bundle-generation orchestrator (`src/Bundle.ts`).

The definitions below are a shallow embedding of the `Bundle` class and the
helper functions of `Bundle.ts`.  External collaborators (`Chunk`,
`PluginDriver`, `Graph`, the chunk-assignment primitive, path utilities and so
on) are parameters of the embedding: they are either fields of `PipelineEnv`
or explicit function arguments, so every theorem is quantified over their
behaviour.  Asynchronous control flow is linearized: the `generate` method is
modelled as a function producing the sequence of pipeline events (`Trace`)
together with an `Except` result, mirroring the `try`/`catch` structure of the
source.
-/

namespace Rollup

/-- A program module as seen by `Bundle.ts`: a stable id together with the
flags read by `getIncludedModules` (`isIncluded()`, `info.isEntry`,
`includedDynamicImporters.length`), the `isUserDefinedEntryPoint` flag read by
`assignChunkIds`, and the execution-order index used by
`sortByExecutionOrder`. -/
structure Module where
  id : String
  included : Bool
  isEntry : Bool
  includedDynamicImporters : Nat
  isUserDefinedEntryPoint : Bool
  execIndex : Nat
  deriving DecidableEq

/-- A value of `graph.modulesById`: either a proper `Module` or an
`ExternalModule` (filtered out by the `instanceof Module` checks). -/
inductive GraphModule where
  | mod (m : Module)
  | ext (id : String)
  deriving DecidableEq

/-- The part of the module graph read by `Bundle.ts`: the values of
`modulesById` in insertion order, and `entryModules`. -/
structure Graph where
  modulesById : List GraphModule
  entryModules : List Module

/-- The errors raised by the embedded code (`utils/error.ts` error objects):
`errCannotAssignModuleToChunk`, `errInvalidOption`, plus an opaque failure
value used for failures of external collaborators (hooks, renderers). -/
inductive GenError where
  | cannotAssignModuleToChunk (moduleId : String) (newAlias : String) (existingAlias : String)
  | invalidOption (optionName : String) (urlSnippet : String)
  | externalFailure (code : Nat)
  deriving DecidableEq

/-- Non-fatal reports sent to the warning channel (`onwarn`,
`warnDeprecation`). -/
inductive Warning where
  | deprecatedDirectAssignment
  | chunkInvalid
  | invalidOptionWarning (optionName : String)
  deriving DecidableEq

/-- `output.format` values distinguished by `validateOptionsForMultiChunkOutput`. -/
inductive OutputFormat
  | es
  | cjs
  | amd
  | iife
  | umd
  | system
  deriving DecidableEq

/-- The `output.manualChunks` option: either a static table
(alias to list of module specifiers) or a classifier function
(`GetManualChunk`, invoked with a module id). -/
inductive ManualChunksOption where
  | table (entries : List (String × List String))
  | classifier (getManualChunk : String → Option String)

/-- The normalized output/input options read by the embedded code. -/
structure Config where
  format : OutputFormat
  file : Option String
  sourcemapFile : Option String
  amdAutoId : Bool
  amdId : Option String
  preserveModules : Bool
  inlineDynamicImports : Bool
  validate : Bool
  manualChunks : ManualChunksOption

/-- Association-list lookup, modelling `Map.get` for string-keyed maps. -/
def alookup {α : Type} : List (String × α) → String → Option α
  | [], _ => none
  | kv :: rest, key => if kv.1 = key then some kv.2 else alookup rest key

/-- Association-list update, modelling `Map.set` / keyed assignment:
replaces the binding of the key if present, otherwise appends it. -/
def aset {α : Type} : List (String × α) → String → α → List (String × α)
  | [], key, v => [(key, v)]
  | kv :: rest, key, v => if kv.1 = key then (key, v) :: rest else kv :: aset rest key v

/-- The module-to-alias mapping `manualChunkAliasByEntry`, keyed by the
module's stable id (`modulesById` interns modules, so a module id identifies
the module object). -/
abbrev AliasMap := List (String × String)

instance {e a : Type} [DecidableEq e] [DecidableEq a] : DecidableEq (Except e a)
  | Except.error x, Except.error y =>
    if h : x = y then Decidable.isTrue (by rw [h])
    else Decidable.isFalse (fun hh => h ((Except.error.injEq _ _) ▸ hh))
  | Except.error x, Except.ok y => Decidable.isFalse (fun hh => Except.noConfusion hh)
  | Except.ok x, Except.error y => Decidable.isFalse (fun hh => Except.noConfusion hh)
  | Except.ok x, Except.ok y =>
    if h : x = y then Decidable.isTrue (by rw [h])
    else Decidable.isFalse (fun hh => h ((Except.ok.injEq _ _) ▸ hh))

/-- `addModuleToManualChunk` from `Bundle.ts`: assigning a module already
mapped to a *different* alias raises `errCannotAssignModuleToChunk` with the
module id, the new alias and the existing alias; otherwise the mapping is
(re-)recorded. -/
def addModuleToManualChunk (manualAlias : String) (moduleId : String) (m : AliasMap) :
    Except GenError AliasMap :=
  match alookup m moduleId with
  | some existingAlias =>
    if existingAlias ≠ manualAlias then
      Except.error (GenError.cannotAssignModuleToChunk moduleId manualAlias existingAlias)
    else
      Except.ok (aset m moduleId manualAlias)
  | none => Except.ok (aset m moduleId manualAlias)

/-- A loop of `addModuleToManualChunk` calls over a list of
(alias, module id) pairs, the shape shared by the loops in
`addManualChunks` and `assignManualChunks`. -/
def resolveManualPairs : List (String × String) → AliasMap → Except GenError AliasMap
  | [], m => Except.ok m
  | p :: rest, m =>
    match addModuleToManualChunk p.1 p.2 m with
    | Except.error e => Except.error e
    | Except.ok m1 => resolveManualPairs rest m1

/-- The nested loop of `addManualChunks`: for each table entry, the files are
resolved to modules (`moduleLoader.addAdditionalModules`, an external
collaborator passed in as `resolveFiles`) and each resulting module is
assigned the entry's alias. -/
def addManualChunksGo (resolveFiles : List String → List Module) :
    List (String × List String) → AliasMap → Except GenError AliasMap
  | [], m => Except.ok m
  | av :: rest, m =>
    match resolveManualPairs ((resolveFiles av.2).map (fun md => (av.1, md.id))) m with
    | Except.error e => Except.error e
    | Except.ok m1 => addManualChunksGo resolveFiles rest m1

/-- `Bundle.addManualChunks`: static-table mode of the manual chunk
resolver. -/
def addManualChunks (resolveFiles : List String → List Module)
    (table : List (String × List String)) : Except GenError AliasMap :=
  addManualChunksGo resolveFiles table []

/-- The flattened (alias, module id) pair list produced by static-table
mode, in table order. -/
def staticPairs (resolveFiles : List String → List Module)
    (table : List (String × List String)) : List (String × String) :=
  table.flatMap (fun av => (resolveFiles av.2).map (fun md => (av.1, md.id)))

/-- The (alias, module id) pairs collected by `assignManualChunks` before
sorting: the classifier is invoked for every proper `Module` of
`modulesById`, and string results are recorded. -/
def classifierRawPairs (getManualChunk : String → Option String) (graph : Graph) :
    List (String × String) :=
  graph.modulesById.filterMap (fun gm =>
    match gm with
    | GraphModule.mod m => (getManualChunk m.id).map (fun a => (a, m.id))
    | GraphModule.ext _ => none)

/-- One step of the stable sort used by `assignManualChunks`
(`sort(([aliasA], [aliasB]) => aliasA > aliasB ? 1 : aliasA < aliasB ? -1 : 0)`,
a stable sort by alias). -/
def insertPairByAlias (p : String × String) :
    List (String × String) → List (String × String)
  | [] => [p]
  | q :: rest => if q.1 < p.1 then q :: insertPairByAlias p rest else p :: q :: rest

/-- The stable sort of the collected pairs by alias. -/
def sortPairsByAlias (l : List (String × String)) : List (String × String) :=
  l.foldr insertPairByAlias []

/-- `Bundle.assignManualChunks`: classifier mode of the manual chunk
resolver: collect (alias, module) pairs, sort them by alias, then run the
`addModuleToManualChunk` loop. -/
def assignManualChunks (getManualChunk : String → Option String) (graph : Graph) :
    Except GenError AliasMap :=
  resolveManualPairs (sortPairsByAlias (classifierRawPairs getManualChunk graph)) []

/-- A pair list is conflict-free when no module id is paired with two
distinct aliases.  This property is invariant under reordering of the
pairs. -/
def conflictFree (l : List (String × String)) : Prop :=
  ∀ p ∈ l, ∀ q ∈ l, p.2 = q.2 → p.1 = q.1

instance (l : List (String × String)) : Decidable (conflictFree l) := by
  unfold conflictFree
  infer_instance

theorem alookup_aset {α : Type} (m : List (String × α)) (k : String) (v : α) (k' : String) :
    alookup (aset m k v) k' = if k = k' then some v else alookup m k' := by
  induction m with
  | nil => simp [aset, alookup]
  | cons kv rest ih =>
    by_cases h1 : kv.1 = k
    · by_cases h2 : k = k'
      · simp [aset, alookup, h1, h2]
      · have h3 : ¬ kv.1 = k' := by rw [h1]; exact h2
        simp [aset, alookup, h1, h2, h3]
    · by_cases h2 : kv.1 = k'
      · have h3 : ¬ k = k' := fun h => h1 (h2.trans h.symm)
        have h4 : ¬ k' = k := fun h => h3 h.symm
        simp [aset, alookup, h1, h2, h3, h4]
      · simp [aset, alookup, h1, h2, ih]

theorem resolveManualPairs_append (l1 l2 : List (String × String)) (m : AliasMap) :
    resolveManualPairs (l1 ++ l2) m =
      match resolveManualPairs l1 m with
      | Except.error e => Except.error e
      | Except.ok m1 => resolveManualPairs l2 m1 := by
  induction l1 generalizing m with
  | nil => simp [resolveManualPairs]
  | cons p rest ih =>
    simp only [List.cons_append, resolveManualPairs]
    cases addModuleToManualChunk p.1 p.2 m with
    | error e => rfl
    | ok m1 => exact ih m1

theorem addManualChunksGo_eq_flat (resolveFiles : List String → List Module)
    (table : List (String × List String)) (m : AliasMap) :
    addManualChunksGo resolveFiles table m =
      resolveManualPairs (staticPairs resolveFiles table) m := by
  induction table generalizing m with
  | nil => simp [addManualChunksGo, staticPairs, resolveManualPairs]
  | cons av rest ih =>
    simp only [addManualChunksGo, staticPairs, List.flatMap_cons]
    rw [resolveManualPairs_append]
    cases resolveManualPairs ((resolveFiles av.2).map (fun md => (av.1, md.id))) m with
    | error e => rfl
    | ok m1 => simpa [staticPairs] using ih m1

/-- Consistency of a pair list with an already-accumulated alias map: every
pair whose module id is already mapped agrees with the mapped alias. -/
def consistentWith (m : AliasMap) (pairs : List (String × String)) : Prop :=
  ∀ p ∈ pairs, ∀ b, alookup m p.2 = some b → p.1 = b

theorem cons_back (hd : String × String) (rest : List (String × String)) (m : AliasMap)
    (cf : conflictFree (hd :: rest)) (cons : consistentWith m (hd :: rest)) :
    conflictFree rest ∧ consistentWith (aset m hd.2 hd.1) rest := by
  constructor
  · intro p hp q hq heq
    exact cf p (List.mem_cons_of_mem hd hp) q (List.mem_cons_of_mem hd hq) heq
  · intro p hp b hb
    rw [alookup_aset] at hb
    by_cases h : hd.2 = p.2
    · rw [if_pos h] at hb
      have hb1 : b = hd.1 := (Option.some.injEq _ _ ▸ hb :).symm
      rw [hb1]
      exact cf p (List.mem_cons_of_mem hd hp) hd (List.mem_cons_self hd rest) h.symm
    · rw [if_neg h] at hb
      exact cons p (List.mem_cons_of_mem hd hp) b hb

theorem resolveManualPairs_ok_iff (pairs : List (String × String)) (m : AliasMap) :
    (∃ m', resolveManualPairs pairs m = Except.ok m') ↔
      (conflictFree pairs ∧ consistentWith m pairs) := by
  induction pairs generalizing m with
  | nil => simp [conflictFree, consistentWith, resolveManualPairs]
  | cons hd rest ih =>
    simp only [resolveManualPairs]
    rcases hl : alookup m hd.2 with _ | ex
    · simp only [addModuleToManualChunk, hl]
      rw [ih]
      constructor
      · rintro ⟨cfRest, consRest⟩
        constructor
        · intro p hp q hq heq
          rcases List.mem_cons.mp hp with rfl | hp'
          · rcases List.mem_cons.mp hq with rfl | hq'
            · rfl
            · have := consRest q hq' p.1 (by rw [← heq, alookup_aset, if_pos rfl])
              exact this.symm
          · rcases List.mem_cons.mp hq with rfl | hq'
            · exact consRest p hp' q.1 (by rw [heq, alookup_aset, if_pos rfl])
            · exact cfRest p hp' q hq' heq
        · intro p hp b hb
          rcases List.mem_cons.mp hp with rfl | hp'
          · rw [hl] at hb
            exact absurd hb (by simp)
          · by_cases h : p.2 = hd.2
            · rw [h, hl] at hb
              exact absurd hb (by simp)
            · have h2 : ¬ hd.2 = p.2 := fun hh => h hh.symm
              exact consRest p hp' b (by rw [alookup_aset, if_neg h2]; exact hb)
      · rintro ⟨cf, cons⟩
        exact cons_back hd rest m cf cons
    · by_cases hx : ex = hd.1
      · have hne : ¬ ex ≠ hd.1 := fun h => h hx
        simp only [addModuleToManualChunk, hl, if_neg hne]
        rw [ih]
        constructor
        · rintro ⟨cfRest, consRest⟩
          constructor
          · intro p hp q hq heq
            rcases List.mem_cons.mp hp with rfl | hp'
            · rcases List.mem_cons.mp hq with rfl | hq'
              · rfl
              · have := consRest q hq' p.1 (by rw [← heq, alookup_aset, if_pos rfl])
                exact this.symm
            · rcases List.mem_cons.mp hq with rfl | hq'
              · exact consRest p hp' q.1 (by rw [heq, alookup_aset, if_pos rfl])
              · exact cfRest p hp' q hq' heq
          · intro p hp b hb
            rcases List.mem_cons.mp hp with rfl | hp'
            · rw [hl] at hb
              have : ex = b := Option.some.injEq _ _ ▸ hb
              rw [← this, hx]
            · by_cases h : hd.2 = p.2
              · have hb1 : b = ex := by
                  rw [← h, hl] at hb
                  exact (Option.some.injEq _ _ ▸ hb :).symm
                have hp1 : p.1 = hd.1 :=
                  consRest p hp' hd.1 (by rw [alookup_aset, if_pos h])
                rw [hb1, hx, hp1]
              · exact consRest p hp' b (by rw [alookup_aset, if_neg h]; exact hb)
        · rintro ⟨cf, cons⟩
          exact cons_back hd rest m cf cons
      · simp only [addModuleToManualChunk, hl, if_pos hx]
        constructor
        · rintro ⟨m', hm'⟩
          exact absurd hm' (by simp)
        · rintro ⟨cf, cons⟩
          exact absurd (cons hd (List.mem_cons_self hd rest) ex hl) (fun h => hx h.symm)

theorem resolveManualPairs_error_mem (pairs : List (String × String))
    (P : List (String × String)) :
    ∀ (m : AliasMap), (∀ i b, alookup m i = some b → (b, i) ∈ P) →
    (∀ p ∈ pairs, p ∈ P) →
    ∀ (i a b : String),
      resolveManualPairs pairs m = Except.error (GenError.cannotAssignModuleToChunk i a b) →
      a ≠ b ∧ (a, i) ∈ P ∧ (b, i) ∈ P := by
  induction pairs with
  | nil =>
    intro m _ _ i a b herr
    exact absurd herr (by simp [resolveManualPairs])
  | cons hd rest ih =>
    intro m hm hp i a b herr
    simp only [resolveManualPairs] at herr
    rcases hl : alookup m hd.2 with _ | ex
    · rw [show addModuleToManualChunk hd.1 hd.2 m = Except.ok (aset m hd.2 hd.1) by
        simp [addModuleToManualChunk, hl]] at herr
      refine ih (aset m hd.2 hd.1) ?_ ?_ i a b herr
      · intro i' b' hb'
        rw [alookup_aset] at hb'
        by_cases h : hd.2 = i'
        · have : b' = hd.1 := by
            rw [if_pos h] at hb'
            exact (Option.some.injEq _ _ ▸ hb' :).symm
          rw [this, ← h]
          exact hp hd (List.mem_cons_self hd rest)
        · rw [if_neg h] at hb'
          exact hm i' b' hb'
      · exact fun p hcp => hp p (List.mem_cons_of_mem hd hcp)
    · by_cases hx : ex ≠ hd.1
      · rw [show addModuleToManualChunk hd.1 hd.2 m =
            Except.error (GenError.cannotAssignModuleToChunk hd.2 hd.1 ex) by
          simp [addModuleToManualChunk, hl, hx]] at herr
        have h1 : GenError.cannotAssignModuleToChunk hd.2 hd.1 ex =
            GenError.cannotAssignModuleToChunk i a b := by
          exact Except.error.injEq _ _ ▸ herr
        rcases GenError.cannotAssignModuleToChunk.injEq .. ▸ h1 with ⟨hi, ha, hb⟩
        refine ⟨?_, ?_, ?_⟩
        · rw [← ha, ← hb]
          exact fun h => hx h.symm
        · rw [← ha, ← hi]
          exact hp hd (List.mem_cons_self hd rest)
        · rw [← hb, ← hi]
          exact hm hd.2 ex hl
      · rw [show addModuleToManualChunk hd.1 hd.2 m = Except.ok (aset m hd.2 hd.1) by
          simp [addModuleToManualChunk, hl, hx]] at herr
        have hx1 : ex = hd.1 := not_not.mp (fun h => hx h)
        refine ih (aset m hd.2 hd.1) ?_ ?_ i a b herr
        · intro i' b' hb'
          rw [alookup_aset] at hb'
          by_cases h : hd.2 = i'
          · have : b' = hd.1 := by
              rw [if_pos h] at hb'
              exact (Option.some.injEq _ _ ▸ hb' :).symm
            rw [this, ← h]
            exact hp hd (List.mem_cons_self hd rest)
          · rw [if_neg h] at hb'
            exact hm i' b' hb'
        · exact fun p hcp => hp p (List.mem_cons_of_mem hd hcp)

theorem resolveManualPairs_error_shape (pairs : List (String × String)) :
    ∀ (m : AliasMap) (e : GenError), resolveManualPairs pairs m = Except.error e →
      ∃ i a b, e = GenError.cannotAssignModuleToChunk i a b := by
  induction pairs with
  | nil =>
    intro m e herr
    exact absurd herr (by simp [resolveManualPairs])
  | cons hd rest ih =>
    intro m e herr
    simp only [resolveManualPairs] at herr
    rcases hl : alookup m hd.2 with _ | ex
    · rw [show addModuleToManualChunk hd.1 hd.2 m = Except.ok (aset m hd.2 hd.1) by
        simp [addModuleToManualChunk, hl]] at herr
      exact ih _ e herr
    · by_cases hx : ex ≠ hd.1
      · rw [show addModuleToManualChunk hd.1 hd.2 m =
            Except.error (GenError.cannotAssignModuleToChunk hd.2 hd.1 ex) by
          simp [addModuleToManualChunk, hl, hx]] at herr
        exact ⟨hd.2, hd.1, ex, (Except.error.injEq _ _ ▸ herr :).symm⟩
      · rw [show addModuleToManualChunk hd.1 hd.2 m = Except.ok (aset m hd.2 hd.1) by
          simp [addModuleToManualChunk, hl, hx]] at herr
        exact ih _ e herr

theorem insertPairByAlias_perm (p : String × String) (l : List (String × String)) :
    List.Perm (insertPairByAlias p l) (p :: l) := by
  induction l with
  | nil => exact List.Perm.refl _
  | cons q rest ih =>
    simp only [insertPairByAlias]
    by_cases h : q.1 < p.1
    · rw [if_pos h]
      exact (ih.cons q).trans (List.Perm.swap p q rest)
    · rw [if_neg h]

theorem sortPairsByAlias_perm (l : List (String × String)) :
    List.Perm (sortPairsByAlias l) l := by
  induction l with
  | nil => exact List.Perm.refl _
  | cons p rest ih =>
    simp only [sortPairsByAlias, List.foldr_cons]
    exact (insertPairByAlias_perm p _).trans (ih.cons p)

theorem conflictFree_of_perm {l1 l2 : List (String × String)} (h : List.Perm l1 l2) :
    conflictFree l1 ↔ conflictFree l2 := by
  unfold conflictFree
  constructor <;> intro hc p hp q hq
  · exact hc p (h.symm.subset hp) q (h.symm.subset hq)
  · exact hc p (h.subset hp) q (h.subset hq)

theorem consistentWith_nil (pairs : List (String × String)) :
    consistentWith [] pairs := by
  intro p _ b hb
  exact absurd hb (by simp [alookup])

/-- Claim C1: for every manual-chunk input, in static-table mode and in
classifier mode alike, resolution succeeds exactly when no module is assigned
two distinct aliases — so a module assigned to two distinct aliases always
makes resolution fail, regardless of the ordering of the input, while
re-assigning the same alias to an already-mapped module is not a conflict;
moreover every error raised is the module-conflict error, and it names a
module id together with two genuinely conflicting aliases of that module. -/
theorem manual_chunks_conflict_policy
    (resolveFiles : List String → List Module) (table : List (String × List String))
    (getManualChunk : String → Option String) (graph : Graph) :
    ((∃ m, addManualChunks resolveFiles table = Except.ok m) ↔
        conflictFree (staticPairs resolveFiles table))
    ∧ ((∃ m, assignManualChunks getManualChunk graph = Except.ok m) ↔
        conflictFree (classifierRawPairs getManualChunk graph))
    ∧ (∀ i a b, addManualChunks resolveFiles table =
          Except.error (GenError.cannotAssignModuleToChunk i a b) →
        a ≠ b ∧ (a, i) ∈ staticPairs resolveFiles table ∧
          (b, i) ∈ staticPairs resolveFiles table)
    ∧ (∀ i a b, assignManualChunks getManualChunk graph =
          Except.error (GenError.cannotAssignModuleToChunk i a b) →
        a ≠ b ∧ (a, i) ∈ classifierRawPairs getManualChunk graph ∧
          (b, i) ∈ classifierRawPairs getManualChunk graph)
    ∧ (∀ e, addManualChunks resolveFiles table = Except.error e →
        ∃ i a b, e = GenError.cannotAssignModuleToChunk i a b)
    ∧ (∀ e, assignManualChunks getManualChunk graph = Except.error e →
        ∃ i a b, e = GenError.cannotAssignModuleToChunk i a b) := by
  have hstatic : addManualChunks resolveFiles table =
      resolveManualPairs (staticPairs resolveFiles table) [] :=
    addManualChunksGo_eq_flat resolveFiles table []
  have hperm := sortPairsByAlias_perm (classifierRawPairs getManualChunk graph)
  refine ⟨?_, ?_, ?_, ?_, ?_, ?_⟩
  · rw [hstatic, resolveManualPairs_ok_iff]
    exact ⟨fun h => h.1, fun h => ⟨h, consistentWith_nil _⟩⟩
  · rw [assignManualChunks, resolveManualPairs_ok_iff]
    rw [conflictFree_of_perm hperm]
    exact ⟨fun h => h.1, fun h => ⟨h, consistentWith_nil _⟩⟩
  · intro i a b herr
    rw [hstatic] at herr
    refine resolveManualPairs_error_mem (staticPairs resolveFiles table)
      (staticPairs resolveFiles table) [] ?_ (fun p hp => hp) i a b herr
    intro i' b' hb'
    exact absurd hb' (by simp [alookup])
  · intro i a b herr
    rw [assignManualChunks] at herr
    refine resolveManualPairs_error_mem _
      (classifierRawPairs getManualChunk graph) [] ?_ (fun p hp => hperm.subset hp) i a b herr
    intro i' b' hb'
    exact absurd hb' (by simp [alookup])
  · intro e herr
    rw [hstatic] at herr
    exact resolveManualPairs_error_shape _ [] e herr
  · intro e herr
    rw [assignManualChunks] at herr
    exact resolveManualPairs_error_shape _ [] e herr

/-- A file resolver for concrete examples: each specifier resolves to the
module with that id. -/
def resolveW : List String → List Module :=
  fun files => files.map (fun f =>
    { id := f, included := true, isEntry := false, includedDynamicImporters := 0,
      isUserDefinedEntryPoint := false, execIndex := 0 })

/-- A manual-chunk table assigning module `x` to the two aliases `a` and `b`. -/
def mcConflictTable : List (String × List String) := [("a", ["x"]), ("b", ["x"])]

/-- A manual-chunk table assigning module `x` to the alias `a` twice. -/
def mcSameAliasTable : List (String × List String) := [("a", ["x"]), ("a", ["x"])]

/-- Witness for claim C1 at a concrete input: assigning module `x` to the two
aliases `a` and `b` makes static-table resolution fail, while listing `x`
twice under the same alias `a` succeeds. -/
theorem manual_chunks_conflict_policy_witness :
    (¬ ∃ m, addManualChunks resolveW mcConflictTable = Except.ok m)
    ∧ (∃ m, addManualChunks resolveW mcSameAliasTable = Except.ok m) := by
  constructor
  · intro hex
    have hc :=
      (manual_chunks_conflict_policy resolveW mcConflictTable (fun _ => none)
        { modulesById := [], entryModules := [] }).1.mp hex
    have := hc ("a", "x") (by decide) ("b", "x") (by decide) (by decide)
    exact absurd this (by decide)
  · exact (manual_chunks_conflict_policy resolveW mcSameAliasTable (fun _ => none)
      { modulesById := [], entryModules := [] }).1.mpr (by decide)

/-- `getIncludedModules` from `Bundle.ts`: the proper modules of
`modulesById` (in insertion order) that are included, entry points, or still
dynamically imported. -/
def getIncludedModules (modulesById : List GraphModule) : List Module :=
  modulesById.filterMap (fun gm =>
    match gm with
    | GraphModule.mod m =>
      if m.included || m.isEntry || m.includedDynamicImporters != 0 then some m else none
    | GraphModule.ext _ => none)

/-- Modelled from the spec: `sortByExecutionOrder` (utils/executionOrder.ts,
code of this repository not under `src/`) reorders a group's modules into
execution order — per spec §4.2 a dependency-respecting order with stable
tie-breaking, modelled as a stable insertion sort by the module's execution
index. -/
def insertByExecIndex (m : Module) : List Module → List Module
  | [] => [m]
  | x :: xs => if x.execIndex < m.execIndex then x :: insertByExecIndex m xs else m :: x :: xs

/-- Modelled from the spec: the execution-order sort applied by
`generateChunks` to every group before chunk construction. -/
def sortByExecutionOrder (modules : List Module) : List Module :=
  modules.foldr insertByExecIndex []

/-- The fields of a `Chunk` instance read by `Bundle.ts`: its ordered
modules, its manual-chunk alias, and its facade module.  The remaining
`Chunk` state (imports/exports filled in by `link`, rendered source, …) is
owned by the external `Chunk` collaborator and is not inspected by the
embedded orchestrator code. -/
structure Chunk where
  modules : List Module
  chunkAlias : Option String
  facadeModule : Option Module
  deriving DecidableEq

/-- One partition group `{ alias, modules }` as iterated by the chunk
construction loop of `generateChunks`. -/
structure ChunkGroup where
  chunkAlias : Option String
  modules : List Module

/-- The three mutually exclusive partition sources of `generateChunks`:
`inlineDynamicImports` puts all included modules into one group,
`preserveModules` puts each included module into its own group, and otherwise
the external `getChunkAssignments` primitive (utils/chunkAssignment.ts,
treated as an external collaborator per spec §4.2) computes the groups from
the entry modules and the manual-alias map. -/
def chunkGroupsFor (cfg : Config) (graph : Graph)
    (getChunkAssignments : List Module → AliasMap → List ChunkGroup)
    (aliasMap : AliasMap) : List ChunkGroup :=
  if cfg.inlineDynamicImports then
    [{ chunkAlias := none, modules := getIncludedModules graph.modulesById }]
  else if cfg.preserveModules then
    (getIncludedModules graph.modulesById).map (fun m => { chunkAlias := none, modules := [m] })
  else getChunkAssignments graph.entryModules aliasMap

/-- The chunk-construction loop of `generateChunks`: each group's modules are
sorted into execution order and a `Chunk` is constructed with the group's
alias.  The facade-module field is internal `Chunk` state, supplied here by
the external constructor behaviour `facadeOf`. -/
def buildChunks (facadeOf : List Module → Option String → Option Module)
    (groups : List ChunkGroup) : List Chunk :=
  groups.map (fun g =>
    { modules := sortByExecutionOrder g.modules
      chunkAlias := g.chunkAlias
      facadeModule := facadeOf (sortByExecutionOrder g.modules) g.chunkAlias })

/-- The facade-collection loop of `generateChunks`
(`for (const chunk of chunks) facades.push(...chunk.generateFacades())`),
with `chunk.generateFacades` an external `Chunk` method. -/
def collectFacades (generateFacades : Chunk → List Chunk) : List Chunk → List Chunk
  | [] => []
  | c :: rest => generateFacades c ++ collectFacades generateFacades rest

theorem collectFacades_eq_flatMap (generateFacades : Chunk → List Chunk) (l : List Chunk) :
    collectFacades generateFacades l = l.flatMap generateFacades := by
  induction l with
  | nil => rfl
  | cons c rest ih => simp [collectFacades, ih]

/-- The manual-chunk dispatch at the top of `generateChunks`
(`typeof manualChunks === 'object' ? addManualChunks : assignManualChunks`). -/
def resolveManualAliasMap (cfg : Config) (graph : Graph)
    (resolveFiles : List String → List Module) : Except GenError AliasMap :=
  match cfg.manualChunks with
  | ManualChunksOption.table t => addManualChunks resolveFiles t
  | ManualChunksOption.classifier f => assignManualChunks f graph

/-- `Bundle.generateChunks`: resolve manual chunks, partition, construct the
primary chunks, link them (linking only fills chunk-internal import/export
state and does not change the fields modelled here), collect the facades each
chunk generates, and return the primary chunks followed by the facades. -/
def generateChunks (cfg : Config) (graph : Graph)
    (getChunkAssignments : List Module → AliasMap → List ChunkGroup)
    (resolveFiles : List String → List Module)
    (facadeOf : List Module → Option String → Option Module)
    (generateFacades : Chunk → List Chunk) : Except GenError (List Chunk) :=
  match resolveManualAliasMap cfg graph resolveFiles with
  | Except.error e => Except.error e
  | Except.ok aliasMap =>
    Except.ok
      (buildChunks facadeOf (chunkGroupsFor cfg graph getChunkAssignments aliasMap)
        ++ collectFacades generateFacades
            (buildChunks facadeOf (chunkGroupsFor cfg graph getChunkAssignments aliasMap)))

theorem sortByExecutionOrder_singleton (m : Module) : sortByExecutionOrder [m] = [m] := rfl

/-- Claim C5: with `preserveModules` set (and dynamic imports not inlined),
the partition produces exactly one chunk per included module, each chunk's
module list being the singleton of its module in `modulesById` insertion
order, and every such chunk has no manual-chunk alias, whatever the
manual-alias map says. -/
theorem preserve_modules_partition (cfg : Config) (graph : Graph)
    (getChunkAssignments : List Module → AliasMap → List ChunkGroup)
    (aliasMap : AliasMap) (facadeOf : List Module → Option String → Option Module)
    (hpm : cfg.preserveModules = true) (hinl : cfg.inlineDynamicImports = false) :
    (buildChunks facadeOf (chunkGroupsFor cfg graph getChunkAssignments aliasMap)).map
        (fun c => c.modules)
      = (getIncludedModules graph.modulesById).map (fun m => [m])
    ∧ ∀ c ∈ buildChunks facadeOf (chunkGroupsFor cfg graph getChunkAssignments aliasMap),
        c.chunkAlias = none := by
  have hg : chunkGroupsFor cfg graph getChunkAssignments aliasMap =
      (getIncludedModules graph.modulesById).map
        (fun m => { chunkAlias := none, modules := [m] }) := by
    simp [chunkGroupsFor, hpm, hinl]
  constructor
  · rw [hg, buildChunks, List.map_map, List.map_map]
    apply List.map_congr_left
    intro m _
    simp [sortByExecutionOrder_singleton]
  · rw [hg, buildChunks, List.map_map]
    intro c hc
    rcases List.mem_map.mp hc with ⟨m, _, rfl⟩
    rfl

/-- The preserve-modules config used in concrete examples. -/
def cfgPreserve : Config :=
  { format := OutputFormat.es, file := none, sourcemapFile := none, amdAutoId := true,
    amdId := none, preserveModules := true, inlineDynamicImports := false, validate := false,
    manualChunks := ManualChunksOption.classifier (fun _ => none) }

/-- An included user-defined entry module. -/
def mA : Module :=
  { id := "a.js", included := true, isEntry := true, includedDynamicImporters := 0,
    isUserDefinedEntryPoint := true, execIndex := 0 }

/-- An included non-entry module. -/
def mB : Module :=
  { id := "b.js", included := true, isEntry := false, includedDynamicImporters := 0,
    isUserDefinedEntryPoint := false, execIndex := 1 }

/-- A module excluded by tree-shaking. -/
def mX : Module :=
  { id := "x.js", included := false, isEntry := false, includedDynamicImporters := 0,
    isUserDefinedEntryPoint := false, execIndex := 2 }

/-- A graph with two included modules, one external module and one
tree-shaken module. -/
def graphAB : Graph :=
  { modulesById :=
      [GraphModule.mod mA, GraphModule.ext "dep", GraphModule.mod mB, GraphModule.mod mX],
    entryModules := [mA, mB] }

/-- Witness for claim C5 at a concrete input: the preserve-modules partition of
`graphAB` is one singleton chunk per included module, in insertion order. -/
theorem preserve_modules_partition_witness :
    (buildChunks (fun _ _ => none)
        (chunkGroupsFor cfgPreserve graphAB (fun _ _ => []) [("a.js", "z")])).map
        (fun c => c.modules)
      = [[mA], [mB]] := by
  have h := preserve_modules_partition cfgPreserve graphAB (fun _ _ => [])
    [("a.js", "z")] (fun _ _ => none) rfl rfl
  rw [h.1]
  rfl

/-- Claim C8: the chunk list returned by chunk generation is the primary
chunks followed by all facade chunks, the facades concatenated in the order
of the primary chunks that generated them. -/
theorem facades_after_primary_chunks (cfg : Config) (graph : Graph)
    (getChunkAssignments : List Module → AliasMap → List ChunkGroup)
    (resolveFiles : List String → List Module)
    (facadeOf : List Module → Option String → Option Module)
    (generateFacades : Chunk → List Chunk) (result : List Chunk)
    (h : generateChunks cfg graph getChunkAssignments resolveFiles facadeOf generateFacades
        = Except.ok result) :
    ∃ aliasMap, resolveManualAliasMap cfg graph resolveFiles = Except.ok aliasMap ∧
      result =
        buildChunks facadeOf (chunkGroupsFor cfg graph getChunkAssignments aliasMap)
          ++ (buildChunks facadeOf
              (chunkGroupsFor cfg graph getChunkAssignments aliasMap)).flatMap
              generateFacades := by
  rw [generateChunks] at h
  rcases hr : resolveManualAliasMap cfg graph resolveFiles with e | aliasMap
  · rw [hr] at h
    exact absurd h (by simp)
  · rw [hr] at h
    refine ⟨aliasMap, rfl, ?_⟩
    have hres := (Except.ok.injEq _ _ ▸ h :)
    rw [← hres, collectFacades_eq_flatMap]

/-- The automatic-mode config used in concrete examples. -/
def cfgAuto : Config :=
  { format := OutputFormat.es, file := none, sourcemapFile := none, amdAutoId := true,
    amdId := none, preserveModules := false, inlineDynamicImports := false, validate := false,
    manualChunks := ManualChunksOption.classifier (fun _ => none) }

/-- A chunk-assignment primitive placing every entry module in its own
group. -/
def gcaPerEntry : List Module → AliasMap → List ChunkGroup :=
  fun entries _ => entries.map (fun m => { chunkAlias := none, modules := [m] })

/-- The primary chunk holding `mA`. -/
def chA : Chunk := { modules := [mA], chunkAlias := none, facadeModule := none }

/-- The primary chunk holding `mB`. -/
def chB : Chunk := { modules := [mB], chunkAlias := none, facadeModule := none }

/-- A facade chunk generated by `chB`. -/
def fcB : Chunk := { modules := [], chunkAlias := none, facadeModule := some mB }

/-- A facade generator producing `fcB` for `chB` and nothing otherwise. -/
def genFacadesW : Chunk → List Chunk := fun c => if c = chB then [fcB] else []

/-- Witness for claim C8 at a concrete input: generating chunks for `graphAB`
with a facade on the second primary chunk yields the two primary chunks
followed by the facade. -/
theorem facades_after_primary_chunks_witness :
    ∃ aliasMap, resolveManualAliasMap cfgAuto graphAB resolveW = Except.ok aliasMap ∧
      [chA, chB, fcB] =
        buildChunks (fun _ _ => none)
            (chunkGroupsFor cfgAuto graphAB gcaPerEntry aliasMap)
          ++ (buildChunks (fun _ _ => none)
              (chunkGroupsFor cfgAuto graphAB gcaPerEntry aliasMap)).flatMap
              genFacadesW := by
  exact facades_after_primary_chunks cfgAuto graphAB gcaPerEntry resolveW
    (fun _ _ => none) genFacadesW [chA, chB, fcB] (by decide)

/-- The artifact kinds of output-bundle entries (`type` values `chunk`,
`asset` and the internal `placeholder` of `FILE_PLACEHOLDER`). -/
inductive FileType
  | chunk
  | asset
  | placeholder
  deriving DecidableEq

/-- An output-bundle entry as inspected by the embedded code: its `type` tag
(absent for legacy direct assignments made by plugins) and its `code`
property (present on rendered chunks). -/
structure OutFile where
  fileType : Option FileType
  code : Option String
  deriving DecidableEq

/-- `FILE_PLACEHOLDER` from utils/outputBundle: the placeholder entry used to
reserve an identity in the output bundle. -/
def FILE_PLACEHOLDER : OutFile := { fileType := some FileType.placeholder, code := none }

/-- The output bundle (`OutputBundleWithPlaceholders`): identity-keyed
entries, modelled as an association list in insertion order. -/
abbrev Bundle := List (String × OutFile)

/-- Modelled from the spec: `basename` (utils/path.ts, code of this
repository not under `src/`) returns the final segment of a path. -/
def basename (p : String) : String := (p.splitOn "/").getLastD p

/-- The predicate of the entry/other split in `assignChunkIds`:
`chunk.facadeModule && chunk.facadeModule.isUserDefinedEntryPoint`. -/
def isUserDefinedEntryFacade (c : Chunk) : Bool :=
  match c.facadeModule with
  | some m => m.isUserDefinedEntryPoint
  | none => false

/-- The entry/other partition loop of `assignChunkIds`: chunks whose facade
module is a user-defined entry point are pushed onto `entryChunks`, the rest
onto `otherChunks`, in both cases preserving order.  Chunks are paired with
their position in the incoming list, standing in for JS object identity. -/
def splitForNaming (chunks : List (Nat × Chunk)) :
    List (Nat × Chunk) × List (Nat × Chunk) :=
  chunks.foldl
    (fun acc ic =>
      if isUserDefinedEntryFacade ic.2 then (acc.1 ++ [ic], acc.2)
      else (acc.1, acc.2 ++ [ic]))
    ([], [])

/-- `entryChunks.concat(otherChunks)`: the order in which `assignChunkIds`
walks the chunks when assigning identities. -/
def chunksForNaming (chunks : List (Nat × Chunk)) : List (Nat × Chunk) :=
  (splitForNaming chunks).1 ++ (splitForNaming chunks).2

/-- The per-chunk identity choice of `assignChunkIds`: the basename of
`output.file` when set, otherwise the preserve-modules name, otherwise the
pattern-generated name.  The two name generators are external `Chunk` methods
(`generateIdPreserveModules` and `generateId`) that receive the current
output bundle for deconfliction. -/
def chunkId (cfg : Config) (genIdPreserve genId : Chunk → Bundle → String)
    (c : Chunk) (b : Bundle) : String :=
  match cfg.file with
  | some f => basename f
  | none => if cfg.preserveModules then genIdPreserve c b else genId c b

/-- The assignment loop of `assignChunkIds`: for each chunk in naming order,
compute its identity against the current bundle, then immediately reserve
that identity in the bundle with `FILE_PLACEHOLDER`. -/
def assignChunkIdsGo (computeId : Chunk → Bundle → String) :
    List (Nat × Chunk) → Bundle → List ((Nat × Chunk) × String) × Bundle
  | [], b => ([], b)
  | ic :: rest, b =>
    ((ic, computeId ic.2 b) ::
        (assignChunkIdsGo computeId rest
          (aset b (computeId ic.2 b) FILE_PLACEHOLDER)).1,
      (assignChunkIdsGo computeId rest (aset b (computeId ic.2 b) FILE_PLACEHOLDER)).2)

/-- `Bundle.assignChunkIds`: split the chunks into user-defined entry
facades and others, then assign identities in that order, reserving each in
the bundle. -/
def assignChunkIds (cfg : Config) (genIdPreserve genId : Chunk → Bundle → String)
    (chunks : List (Nat × Chunk)) (b : Bundle) :
    List ((Nat × Chunk) × String) × Bundle :=
  assignChunkIdsGo (chunkId cfg genIdPreserve genId) (chunksForNaming chunks) b

theorem splitForNaming_go (chunks : List (Nat × Chunk)) :
    ∀ (a1 a2 : List (Nat × Chunk)),
      chunks.foldl
        (fun acc ic =>
          if isUserDefinedEntryFacade ic.2 then (acc.1 ++ [ic], acc.2)
          else (acc.1, acc.2 ++ [ic]))
        (a1, a2)
      = (a1 ++ chunks.filter (fun ic => isUserDefinedEntryFacade ic.2),
         a2 ++ chunks.filter (fun ic => ! isUserDefinedEntryFacade ic.2)) := by
  induction chunks with
  | nil => intro a1 a2; simp
  | cons ic rest ih =>
    intro a1 a2
    by_cases h : isUserDefinedEntryFacade ic.2
    · simp only [List.foldl_cons, h, if_true, List.filter_cons, Bool.not_true, ih]
      simp [h, List.append_assoc]
    · simp only [List.foldl_cons, h, if_false, List.filter_cons, ih]
      simp [h, List.append_assoc]

theorem splitForNaming_spec (chunks : List (Nat × Chunk)) :
    splitForNaming chunks =
      (chunks.filter (fun ic => isUserDefinedEntryFacade ic.2),
       chunks.filter (fun ic => ! isUserDefinedEntryFacade ic.2)) := by
  rw [splitForNaming, splitForNaming_go]
  simp

theorem assignChunkIdsGo_map_fst (f : Chunk → Bundle → String)
    (l : List (Nat × Chunk)) : ∀ (b : Bundle),
    ((assignChunkIdsGo f l b).1).map (fun x => x.1) = l := by
  induction l with
  | nil => intro b; rfl
  | cons ic rest ih =>
    intro b
    simp only [assignChunkIdsGo, List.map_cons, ih]

/-- Claim C3: `assignChunkIds` walks the chunks assigning identities with all
chunks whose facade module is a user-defined entry point first (in their
original relative order), followed by all remaining chunks in their original
relative (generation) order. -/
theorem assign_chunk_ids_entry_chunks_first (cfg : Config)
    (genIdPreserve genId : Chunk → Bundle → String)
    (chunks : List (Nat × Chunk)) (b : Bundle) :
    ((assignChunkIds cfg genIdPreserve genId chunks b).1).map (fun x => x.1)
      = chunks.filter (fun ic => isUserDefinedEntryFacade ic.2)
        ++ chunks.filter (fun ic => ! isUserDefinedEntryFacade ic.2) := by
  rw [assignChunkIds, assignChunkIdsGo_map_fst, chunksForNaming, splitForNaming_spec]

/-- Reserving a list of identities in order, each with a placeholder
entry. -/
def reserveAll (ids : List String) (b : Bundle) : Bundle :=
  ids.foldl (fun acc i => aset acc i FILE_PLACEHOLDER) b

theorem alookup_reserveAll_not_mem (ids : List String) (i : String) (h : i ∉ ids) :
    ∀ (b : Bundle), alookup (reserveAll ids b) i = alookup b i := by
  induction ids with
  | nil => intro b; rfl
  | cons x xs ih =>
    intro b
    have hx : ¬ x = i := fun hh => h (hh ▸ List.mem_cons_self x xs)
    have hxs : i ∉ xs := fun hh => h (List.mem_cons_of_mem x hh)
    show alookup (reserveAll xs (aset b x FILE_PLACEHOLDER)) i = alookup b i
    rw [ih hxs, alookup_aset, if_neg hx]

theorem alookup_reserveAll_mem (ids : List String) (i : String) (h : i ∈ ids) :
    ∀ (b : Bundle), alookup (reserveAll ids b) i = some FILE_PLACEHOLDER := by
  induction ids with
  | nil => cases h
  | cons x xs ih =>
    intro b
    show alookup (reserveAll xs (aset b x FILE_PLACEHOLDER)) i = some FILE_PLACEHOLDER
    by_cases hx : i ∈ xs
    · exact ih hx (aset b x FILE_PLACEHOLDER)
    · have hix : i = x := by
        rcases List.mem_cons.mp h with h1 | h2
        · exact h1
        · exact absurd h2 hx
      rw [alookup_reserveAll_not_mem xs i hx, hix, alookup_aset, if_pos rfl]

theorem assignChunkIdsGo_observes (f : Chunk → Bundle → String)
    (l : List (Nat × Chunk)) : ∀ (b : Bundle) (k : Nat),
    (∀ (j : Nat) (idj : String), j < k →
      (((assignChunkIdsGo f l b).1).map (fun x => x.2)).get? j = some idj →
      alookup
        (reserveAll ((((assignChunkIdsGo f l b).1).map (fun x => x.2)).take k) b) idj
        = some FILE_PLACEHOLDER)
    ∧ (∀ (ic : Nat × Chunk) (idk : String),
      ((assignChunkIdsGo f l b).1).get? k = some (ic, idk) →
      idk = f ic.2
        (reserveAll ((((assignChunkIdsGo f l b).1).map (fun x => x.2)).take k) b)) := by
  induction l with
  | nil =>
    intro b k
    constructor
    · intro j idj _ hg
      exact absurd hg (by simp [assignChunkIdsGo])
    · intro ic idk hg
      exact absurd hg (by simp [assignChunkIdsGo])
  | cons hd rest ih =>
    intro b k
    cases k with
    | zero =>
      constructor
      · intro j idj hj _
        exact absurd hj (by omega)
      · intro ic idk hg
        simp only [assignChunkIdsGo, List.get?_cons_zero, Option.some.injEq] at hg
        have h1 : ic = hd := congrArg Prod.fst hg.symm
        have h2 : idk = f hd.2 b := congrArg Prod.snd hg.symm
        rw [h2, h1]
        rfl
    | succ k1 =>
      have ihr := ih (aset b (f hd.2 b) FILE_PLACEHOLDER) k1
      constructor
      · intro j idj hj hg
        cases j with
        | zero =>
          simp only [assignChunkIdsGo, List.map_cons, List.get?_cons_zero,
            Option.some.injEq] at hg
          show alookup
            (reserveAll ((f hd.2 b ::
              (((assignChunkIdsGo f rest
                (aset b (f hd.2 b) FILE_PLACEHOLDER)).1).map (fun x => x.2))).take (k1 + 1)) b)
            idj = some FILE_PLACEHOLDER
          rw [List.take_succ_cons]
          apply alookup_reserveAll_mem
          rw [← hg]
          exact List.mem_cons_self _ _
        | succ j1 =>
          have hg1 : (((assignChunkIdsGo f rest
              (aset b (f hd.2 b) FILE_PLACEHOLDER)).1).map (fun x => x.2)).get? j1
              = some idj := by
            simpa [assignChunkIdsGo] using hg
          have := ihr.1 j1 idj (by omega) hg1
          show alookup
            (reserveAll ((f hd.2 b ::
              (((assignChunkIdsGo f rest
                (aset b (f hd.2 b) FILE_PLACEHOLDER)).1).map (fun x => x.2))).take (k1 + 1)) b)
            idj = some FILE_PLACEHOLDER
          rw [List.take_succ_cons]
          exact this
      · intro ic idk hg
        have hg1 : ((assignChunkIdsGo f rest
            (aset b (f hd.2 b) FILE_PLACEHOLDER)).1).get? k1 = some (ic, idk) := by
          simpa [assignChunkIdsGo] using hg
        have := ihr.2 ic idk hg1
        show idk = f ic.2
          (reserveAll ((f hd.2 b ::
            (((assignChunkIdsGo f rest
              (aset b (f hd.2 b) FILE_PLACEHOLDER)).1).map (fun x => x.2))).take (k1 + 1)) b)
        rw [List.take_succ_cons]
        exact this

/-- Claim C7: in `assignChunkIds`, each assigned identity is immediately
reserved in the output bundle with a placeholder entry, so that (first
conjunct) when the k-th chunk's identity is computed, every identity assigned
earlier in the same call is present as a placeholder in the bundle the id
generator deconflicts against, and (second conjunct) the k-th identity is
exactly the id-generator's answer on that placeholder-extended bundle. -/
theorem assign_chunk_ids_reserves_placeholders (cfg : Config)
    (genIdPreserve genId : Chunk → Bundle → String)
    (chunks : List (Nat × Chunk)) (b : Bundle) (k j : Nat) :
    (∀ (idj : String), j < k →
      (((assignChunkIds cfg genIdPreserve genId chunks b).1).map (fun x => x.2)).get? j
        = some idj →
      alookup
        (reserveAll
          ((((assignChunkIds cfg genIdPreserve genId chunks b).1).map
            (fun x => x.2)).take k) b) idj
        = some FILE_PLACEHOLDER)
    ∧ (∀ (ic : Nat × Chunk) (idk : String),
      ((assignChunkIds cfg genIdPreserve genId chunks b).1).get? k = some (ic, idk) →
      idk = chunkId cfg genIdPreserve genId ic.2
        (reserveAll
          ((((assignChunkIds cfg genIdPreserve genId chunks b).1).map
            (fun x => x.2)).take k) b)) := by
  have h := assignChunkIdsGo_observes (chunkId cfg genIdPreserve genId)
    (chunksForNaming chunks) b k
  exact ⟨fun idj hj hg => h.1 j idj hj hg, h.2⟩

/-- A deconflicting id generator for concrete examples: the base name
`chunk`, switching to `chunk2` when `chunk` is already taken in the
bundle. -/
def genIdW : Chunk → Bundle → String :=
  fun _ b =>
    match alookup b "chunk" with
    | some _ => "chunk2"
    | none => "chunk"

/-- Two indexed chunks without facade modules, as input to
`assignChunkIds`. -/
def chunksW : List (Nat × Chunk) :=
  [(0, { modules := [mA], chunkAlias := none, facadeModule := none }),
   (1, { modules := [mB], chunkAlias := none, facadeModule := none })]

/-- Witness for claim C7 at a concrete input: after the first chunk receives
the identity `chunk`, that identity is placeholder-reserved in the bundle the
second assignment deconflicts against, and the second identity is the
generator's answer `chunk2` on that reserved bundle. -/
theorem assign_chunk_ids_reserves_placeholders_witness :
    alookup
      (reserveAll
        ((((assignChunkIds cfgAuto genIdW genIdW chunksW []).1).map
          (fun x => x.2)).take 1) []) "chunk"
      = some FILE_PLACEHOLDER := by
  exact (assign_chunk_ids_reserves_placeholders cfgAuto genIdW genIdW chunksW [] 1 0).1
    "chunk" (by omega) (by decide)

/-- The observable pipeline events of one `generate` call: hook invocations,
chunk construction and linking, option validation, addon creation, per-chunk
export generation and pre-rendering, identity assignment with placeholder
reservation, per-chunk rendering, and the post-generation steps. -/
inductive Event where
  | renderStartHook
  | chunkCreated (i : Nat)
  | linkChunk (i : Nat)
  | validateStep
  | createAddonsStep
  | generateExportsStep (i : Nat)
  | preRenderStep (i : Nat)
  | assignIdStep (i : Nat)
  | reservePlaceholderStep (i : Nat)
  | renderChunkStep (i : Nat)
  | renderErrorHook (e : GenError)
  | generateBundleHook
  | finaliseAssetsStep
  deriving DecidableEq

/-- The sequence of events produced by one `generate` call. -/
abbrev Trace := List Event

/-- The pipeline phase of each event, used to state and prove the
phase-ordering guarantees. -/
def rank : Event → Nat
  | Event.renderStartHook => 0
  | Event.chunkCreated _ => 1
  | Event.linkChunk _ => 1
  | Event.validateStep => 2
  | Event.createAddonsStep => 3
  | Event.generateExportsStep _ => 4
  | Event.preRenderStep _ => 5
  | Event.assignIdStep _ => 6
  | Event.reservePlaceholderStep _ => 6
  | Event.renderChunkStep _ => 7
  | Event.renderErrorHook _ => 8
  | Event.generateBundleHook => 9
  | Event.finaliseAssetsStep => 10

/-- The environment of one `generate` call: the configuration, the module
graph, and the behaviour of every external collaborator the pipeline awaits
(hooks, the chunk-assignment primitive, `Chunk` methods, renderers).
`Except`-valued fields model the possible failure of the corresponding
awaited step. -/
structure PipelineEnv where
  cfg : Config
  graph : Graph
  getChunkAssignments : List Module → AliasMap → List ChunkGroup
  resolveFiles : List String → List Module
  facadeOf : List Module → Option String → Option Module
  generateFacades : Chunk → List Chunk
  renderStart : Except GenError Unit
  createAddons : Except GenError Unit
  generateExportsRes : Nat → Except GenError Unit
  preRenderRes : Nat → Except GenError Unit
  genIdPreserve : Chunk → Bundle → String
  genId : Chunk → Bundle → String
  renderRes : Nat → Except GenError String
  generateBundleRes : Except GenError Unit
  generateBundleMutate : Bundle → Bundle
  contextParse : String → Bool
  pluginFinaliseRes : Except GenError Unit

/-- Sequencing of awaited pipeline steps inside the `try` block of
`generate`: a failure short-circuits the remaining steps, traces
concatenate. -/
def step {A B : Type} (p : Trace × Except GenError A)
    (f : A → Trace × Except GenError B) : Trace × Except GenError B :=
  match p with
  | (t, Except.error e) => (t, Except.error e)
  | (t, Except.ok x) => (t ++ (f x).1, (f x).2)

/-- A synchronous per-chunk loop that may fail at each element, recording one
event per processed element (the loops of `prerenderChunks`). -/
def runLoop (mk : Nat → Event) (res : Nat → Except GenError Unit) :
    List Nat → Trace × Except GenError Unit
  | [] => ([], Except.ok ())
  | i :: rest =>
    match res i with
    | Except.error e => ([mk i], Except.error e)
    | Except.ok _ => (mk i :: (runLoop mk res rest).1, (runLoop mk res rest).2)

/-- `validateOptionsForMultiChunkOutput` from `Bundle.ts`: the UMD and IIFE
formats, `output.file` and `output.sourcemapFile` are fatal errors for
code-splitting builds; a manual `output.amd.id` only warns. -/
def validateOptionsForMultiChunkOutput (cfg : Config) :
    List Warning × Except GenError Unit :=
  if cfg.format = OutputFormat.umd ∨ cfg.format = OutputFormat.iife then
    ([], Except.error (GenError.invalidOption "output.format" "outputformat"))
  else if cfg.file.isSome then
    ([], Except.error (GenError.invalidOption "output.file" "outputdir"))
  else if cfg.sourcemapFile.isSome then
    ([], Except.error (GenError.invalidOption "output.sourcemapFile" "outputsourcemapfile"))
  else if cfg.amdAutoId = false ∧ cfg.amdId.isSome then
    ([Warning.invalidOptionWarning "output.amd.id"], Except.ok ())
  else ([], Except.ok ())

/-- The guarded call site of the validation in `generate`
(`if (chunks.length > 1) validateOptionsForMultiChunkOutput(...)`), reached
only after `generateChunks` has returned its chunk list. -/
def runValidate (cfg : Config) (chunks : List Chunk) : Trace × Except GenError Unit :=
  if chunks.length > 1 then
    ([Event.validateStep], (validateOptionsForMultiChunkOutput cfg).2)
  else ([], Except.ok ())

/-- The traced `generateChunks` step: the trace records the chunk
construction loop and the link loop over the primary chunks. -/
def runGenerateChunks (env : PipelineEnv) : Trace × Except GenError (List Chunk) :=
  match resolveManualAliasMap env.cfg env.graph env.resolveFiles with
  | Except.error e => ([], Except.error e)
  | Except.ok aliasMap =>
    ((List.range (buildChunks env.facadeOf
          (chunkGroupsFor env.cfg env.graph env.getChunkAssignments aliasMap)).length).map
        Event.chunkCreated
      ++ (List.range (buildChunks env.facadeOf
          (chunkGroupsFor env.cfg env.graph env.getChunkAssignments aliasMap)).length).map
        Event.linkChunk,
     Except.ok
       (buildChunks env.facadeOf
           (chunkGroupsFor env.cfg env.graph env.getChunkAssignments aliasMap)
         ++ collectFacades env.generateFacades
             (buildChunks env.facadeOf
               (chunkGroupsFor env.cfg env.graph env.getChunkAssignments aliasMap))))

/-- The identity assigned to the chunk at original position `i`, recovered
from the naming-order assignment list (position stands in for JS object
identity of the mutable `chunk.id` field). -/
def idForIndex (assigned : List ((Nat × Chunk) × String)) (i : Nat) : Option String :=
  (assigned.find? (fun x => x.1.1 == i)).map (fun x => x.2)

/-- The loop `for (const chunk of chunks) bundle[chunk.id] =
chunk.getChunkInfoWithFileNames()`, iterating the chunks in generation order;
the chunk info is a chunk-typed entry without code (the code is merged in by
`render`). -/
def populateChunkInfos (assigned : List ((Nat × Chunk) × String)) (n : Nat)
    (b : Bundle) : Bundle :=
  (List.range n).foldl
    (fun acc i =>
      match idForIndex assigned i with
      | some id => aset acc id { fileType := some FileType.chunk, code := none }
      | none => acc)
    b

/-- The `Promise.all(chunks.map(async chunk => ...render...))` step: every
render's result (the finalized code produced by the external
format-finalize / addon-wrap / renderChunk-hook chain) is merged into the
chunk's bundle entry, and the first failing render fails the whole step. -/
def mergeRenders (renderRes : Nat → Except GenError String)
    (assigned : List ((Nat × Chunk) × String)) :
    List Nat → Bundle → Except GenError Bundle
  | [], b => Except.ok b
  | i :: rest, b =>
    match renderRes i with
    | Except.error e => Except.error e
    | Except.ok code =>
      match idForIndex assigned i with
      | some id =>
        mergeRenders renderRes assigned rest
          (aset b id { fileType := some FileType.chunk, code := some code })
      | none => mergeRenders renderRes assigned rest b

/-- `Bundle.addFinalizedChunksToBundle`: assign identities (reserving each
with a placeholder), write every chunk's info into the bundle, then render
all chunks; all renders are started (`Promise.all`), so the trace holds one
render event per chunk, and the merged bundle is produced unless some render
fails. -/
def runAssignAndRender (env : PipelineEnv) (chunks : List Chunk) :
    Trace × Except GenError Bundle :=
  ((List.range (chunksForNaming chunks.enum).length).flatMap
      (fun i => [Event.assignIdStep i, Event.reservePlaceholderStep i])
    ++ (List.range chunks.length).map Event.renderChunkStep,
   mergeRenders env.renderRes
     (assignChunkIds env.cfg env.genIdPreserve env.genId chunks.enum []).1
     (List.range chunks.length)
     (populateChunkInfos
       (assignChunkIds env.cfg env.genIdPreserve env.genId chunks.enum []).1
       chunks.length
       (assignChunkIds env.cfg env.genIdPreserve env.genId chunks.enum []).2))

/-- One entry of the `finaliseAssets` validation loop: an entry without a
recognized `type` is coerced to asset kind after a deprecation notice
(`warnDeprecation` lives in utils/error.ts, code of this repository not under
`src/`; modelled from the spec: per §7 it is a non-fatal warning-channel
report); then, when `output.validate` is set and the entry has a `code`
property, the code is parsed (`graph.contextParse`, an external collaborator
modelled by `parseOk`) and a parse failure is reported as a `chunkInvalid`
warning through `onwarn`. -/
def finaliseFile (validate : Bool) (parseOk : String → Bool) (f : OutFile) :
    OutFile × List Warning :=
  match f.fileType with
  | none =>
    ({ f with fileType := some FileType.asset },
     Warning.deprecatedDirectAssignment ::
       (match f.code with
        | some c => if validate && ! parseOk c then [Warning.chunkInvalid] else []
        | none => []))
  | some _ =>
    (f,
     match f.code with
     | some c => if validate && ! parseOk c then [Warning.chunkInvalid] else []
     | none => [])

/-- The `finaliseAssets` loop over all bundle entries, collecting the
warnings it reports. -/
def finaliseAssetsLoop (validate : Bool) (parseOk : String → Bool) :
    Bundle → Bundle × List Warning
  | [] => ([], [])
  | kf :: rest =>
    ((kf.1, (finaliseFile validate parseOk kf.2).1) ::
        (finaliseAssetsLoop validate parseOk rest).1,
     (finaliseFile validate parseOk kf.2).2
       ++ (finaliseAssetsLoop validate parseOk rest).2)

/-- The `try` block of `Bundle.generate` (pipeline steps 1–7): the
`renderStart` hook, chunk generation, multi-chunk validation, addon creation,
export generation for every chunk, pre-rendering for every chunk, then
identity assignment and rendering. -/
def generateBody (env : PipelineEnv) : Trace × Except GenError Bundle :=
  step ([Event.renderStartHook], env.renderStart) (fun _ =>
    step (runGenerateChunks env) (fun chunks =>
      step (runValidate env.cfg chunks) (fun _ =>
        step ([Event.createAddonsStep], env.createAddons) (fun _ =>
          step (runLoop Event.generateExportsStep env.generateExportsRes
              (List.range chunks.length)) (fun _ =>
            step (runLoop Event.preRenderStep env.preRenderRes
                (List.range chunks.length)) (fun _ =>
              runAssignAndRender env chunks))))))

/-- `Bundle.generate`: the `try` block; on failure the `catch` block invokes
the `renderError` hook with the failure and re-throws it; on success the
sequential `generateBundle` hook runs (its bundle mutations are honored),
then `finaliseAssets` (the validation loop followed by
`pluginDriver.finaliseAssets`, an external collaborator), and the final
bundle is returned. -/
def generate (env : PipelineEnv) : Trace × Except GenError Bundle :=
  match generateBody env with
  | (t, Except.error e) => (t ++ [Event.renderErrorHook e], Except.error e)
  | (t, Except.ok b) =>
    match env.generateBundleRes with
    | Except.error e => (t ++ [Event.generateBundleHook], Except.error e)
    | Except.ok _ =>
      match env.pluginFinaliseRes with
      | Except.error e =>
        (t ++ [Event.generateBundleHook, Event.finaliseAssetsStep], Except.error e)
      | Except.ok _ =>
        (t ++ [Event.generateBundleHook, Event.finaliseAssetsStep],
         Except.ok
           (finaliseAssetsLoop env.cfg.validate env.contextParse
             (env.generateBundleMutate b)).1)

/-- `Seg a b t`: the trace `t` is sorted by pipeline rank, all its ranks
lying between `a` and `b`. -/
def Seg (a b : Nat) (t : Trace) : Prop :=
  List.Pairwise (fun x y => rank x ≤ rank y) t ∧ ∀ e ∈ t, a ≤ rank e ∧ rank e ≤ b

theorem seg_nil (a b : Nat) : Seg a b [] := ⟨List.Pairwise.nil, by simp⟩

theorem seg_single (a b : Nat) (e : Event) (h1 : a ≤ rank e) (h2 : rank e ≤ b) :
    Seg a b [e] := ⟨List.pairwise_singleton _ _, by simp [h1, h2]⟩

theorem seg_const (t : Trace) (k a b : Nat) (h : ∀ e ∈ t, rank e = k)
    (h1 : a ≤ k) (h2 : k ≤ b) : Seg a b t := by
  constructor
  · induction t with
    | nil => exact List.Pairwise.nil
    | cons x rest ih =>
      refine List.Pairwise.cons ?_ (ih (fun e he => h e (List.mem_cons_of_mem x he)))
      intro y hy
      rw [h x (List.mem_cons_self x rest), h y (List.mem_cons_of_mem x hy)]
  · intro e he
    rw [h e he]
    exact ⟨h1, h2⟩

theorem seg_mono {a b a' b' : Nat} {t : Trace} (h : Seg a b t)
    (ha : a' ≤ a) (hb : b ≤ b') : Seg a' b' t :=
  ⟨h.1, fun e he => ⟨le_trans ha (h.2 e he).1, le_trans (h.2 e he).2 hb⟩⟩

theorem seg_append {a b c : Nat} {t1 t2 : Trace} (h1 : Seg a b t1) (h2 : Seg b c t2)
    (hab : a ≤ b) (hbc : b ≤ c) : Seg a c (t1 ++ t2) := by
  constructor
  · rw [List.pairwise_append]
    exact ⟨h1.1, h2.1, fun x hx y hy => le_trans (h1.2 x hx).2 (h2.2 y hy).1⟩
  · intro e he
    rcases List.mem_append.mp he with h | h
    · exact ⟨(h1.2 e h).1, le_trans (h1.2 e h).2 hbc⟩
    · exact ⟨le_trans hab (h2.2 e h).1, (h2.2 e h).2⟩

theorem seg_step {x y z : Nat} {A B : Type} (p : Trace × Except GenError A)
    (f : A → Trace × Except GenError B) (hp : Seg x y p.1)
    (hf : ∀ v, Seg y z (f v).1) (hxy : x ≤ y) (hyz : y ≤ z) :
    Seg x z (step p f).1 := by
  obtain ⟨t, r⟩ := p
  cases r with
  | error e =>
    show Seg x z t
    exact seg_mono hp (le_refl x) hyz
  | ok v =>
    show Seg x z (t ++ (f v).1)
    exact seg_append hp (hf v) hxy hyz

theorem runLoop_events (mk : Nat → Event) (res : Nat → Except GenError Unit)
    (l : List Nat) : ∀ e ∈ (runLoop mk res l).1, ∃ i, e = mk i := by
  induction l with
  | nil => simp [runLoop]
  | cons i rest ih =>
    intro e he
    cases hr : res i with
    | error e0 =>
      rw [runLoop, hr] at he
      rcases List.mem_singleton.mp he with rfl
      exact ⟨i, rfl⟩
    | ok _ =>
      rw [runLoop, hr] at he
      rcases List.mem_cons.mp he with rfl | h
      · exact ⟨i, rfl⟩
      · exact ih e h

theorem runGenerateChunks_rank (env : PipelineEnv) :
    ∀ e ∈ (runGenerateChunks env).1, rank e = 1 := by
  rw [runGenerateChunks]
  cases resolveManualAliasMap env.cfg env.graph env.resolveFiles with
  | error e0 => simp
  | ok aliasMap =>
    intro e he
    rcases List.mem_append.mp he with h | h
    · rcases List.mem_map.mp h with ⟨i, _, rfl⟩
      rfl
    · rcases List.mem_map.mp h with ⟨i, _, rfl⟩
      rfl

theorem runValidate_rank (cfg : Config) (chunks : List Chunk) :
    ∀ e ∈ (runValidate cfg chunks).1, rank e = 2 := by
  rw [runValidate]
  by_cases h : chunks.length > 1
  · rw [if_pos h]
    intro e he
    rcases List.mem_singleton.mp he with rfl
    rfl
  · rw [if_neg h]
    simp

theorem runAssignAndRender_seg (env : PipelineEnv) (chunks : List Chunk) :
    Seg 6 7 (runAssignAndRender env chunks).1 := by
  rw [runAssignAndRender]
  refine seg_append (b := 7) ?_ ?_ (by omega) (by omega)
  · refine seg_const _ 6 6 7 ?_ (by omega) (by omega)
    intro e he
    rcases List.mem_flatMap.mp he with ⟨i, _, hm⟩
    rcases List.mem_cons.mp hm with rfl | hm1
    · rfl
    · rcases List.mem_singleton.mp hm1 with rfl
      rfl
  · refine seg_const _ 7 7 7 ?_ (by omega) (by omega)
    intro e he
    rcases List.mem_map.mp he with ⟨i, _, rfl⟩
    rfl

theorem generateBody_seg (env : PipelineEnv) : Seg 0 7 (generateBody env).1 := by
  rw [generateBody]
  refine seg_step (y := 1) _ _
    (seg_single 0 1 Event.renderStartHook (by decide) (by decide)) ?_ (by omega) (by omega)
  intro _
  refine seg_step (y := 2) _ _
    (seg_const _ 1 1 2 (runGenerateChunks_rank env) (by omega) (by omega))
    ?_ (by omega) (by omega)
  intro chunks
  refine seg_step (y := 3) _ _
    (seg_const _ 2 2 3 (runValidate_rank env.cfg chunks) (by omega) (by omega))
    ?_ (by omega) (by omega)
  intro _
  refine seg_step (y := 4) _ _
    (seg_single 3 4 Event.createAddonsStep (by decide) (by decide)) ?_ (by omega) (by omega)
  intro _
  refine seg_step (y := 5) _ _ ?_ ?_ (by omega) (by omega)
  · refine seg_const _ 4 4 5 ?_ (by omega) (by omega)
    intro e he
    rcases runLoop_events _ _ _ e he with ⟨i, rfl⟩
    rfl
  intro _
  refine seg_step (y := 6) _ _ ?_ ?_ (by omega) (by omega)
  · refine seg_const _ 5 5 6 ?_ (by omega) (by omega)
    intro e he
    rcases runLoop_events _ _ _ e he with ⟨i, rfl⟩
    rfl
  intro _
  exact runAssignAndRender_seg env chunks

theorem generate_seg (env : PipelineEnv) : Seg 0 10 (generate env).1 := by
  have hb := generateBody_seg env
  rw [generate]
  rcases hgb : generateBody env with ⟨t, r⟩
  rw [hgb] at hb
  cases r with
  | error e =>
    exact seg_append (seg_mono hb (by omega) (by omega))
      (seg_single 8 10 (Event.renderErrorHook e) (by simp [rank]) (by simp [rank]))
      (by omega) (by omega)
  | ok b =>
    cases env.generateBundleRes with
    | error e =>
      exact seg_append (seg_mono hb (by omega) (by omega))
        (seg_single 9 10 Event.generateBundleHook (by decide) (by decide)) (by omega) (by omega)
    | ok _ =>
      cases env.pluginFinaliseRes with
      | error e =>
        refine seg_append (b := 9) (seg_mono hb (by omega) (by omega)) ?_ (by omega) (by omega)
        exact seg_append (b := 10)
          (seg_single 9 10 Event.generateBundleHook (by decide) (by decide))
          (seg_single 10 10 Event.finaliseAssetsStep (by decide) (by decide))
          (by omega) (by omega)
      | ok _ =>
        refine seg_append (b := 9) (seg_mono hb (by omega) (by omega)) ?_ (by omega) (by omega)
        exact seg_append (b := 10)
          (seg_single 9 10 Event.generateBundleHook (by decide) (by decide))
          (seg_single 10 10 Event.finaliseAssetsStep (by decide) (by decide))
          (by omega) (by omega)

theorem pairwise_rank_lt {t : Trace}
    (hp : List.Pairwise (fun x y => rank x ≤ rank y) t)
    (i j : Nat) (x y : Event) (hi : t.get? i = some x) (hj : t.get? j = some y)
    (hr : rank x < rank y) : i < j := by
  by_contra hcon
  have hji : j ≤ i := Nat.le_of_not_lt hcon
  rcases List.get?_eq_some.mp hi with ⟨hilen, hxi⟩
  rcases List.get?_eq_some.mp hj with ⟨hjlen, hyj⟩
  rcases Nat.eq_or_lt_of_le hji with heq | hlt
  · rw [← heq] at hi
    rw [hi] at hj
    injection hj with hxy
    rw [hxy] at hr
    exact Nat.lt_irrefl _ hr
  · have := List.pairwise_iff_get.mp hp ⟨j, hjlen⟩ ⟨i, hilen⟩ hlt
    rw [hxi, hyj] at this
    omega

/-- Claim C6: in every generation call, export generation for every chunk
happens strictly before pre-rendering of any chunk, and identity assignment
for every chunk happens strictly before the render/finalize of any chunk. -/
theorem pipeline_phase_ordering (env : PipelineEnv) (i j a b : Nat) :
    ((generate env).1.get? i = some (Event.generateExportsStep a) →
      (generate env).1.get? j = some (Event.preRenderStep b) → i < j)
    ∧ ((generate env).1.get? i = some (Event.assignIdStep a) →
      (generate env).1.get? j = some (Event.renderChunkStep b) → i < j) := by
  have hs := (generate_seg env).1
  constructor
  · intro h1 h2
    exact pairwise_rank_lt hs i j _ _ h1 h2 (by simp [rank])
  · intro h1 h2
    exact pairwise_rank_lt hs i j _ _ h1 h2 (by simp [rank])

/-- A fully successful pipeline environment over `graphAB`, producing one
automatic chunk, used for concrete runs of `generate`. -/
def okEnv : PipelineEnv :=
  { cfg := cfgAuto, graph := graphAB,
    getChunkAssignments := fun entries _ => [{ chunkAlias := none, modules := entries }],
    resolveFiles := resolveW,
    facadeOf := fun _ _ => none,
    generateFacades := fun _ => [],
    renderStart := Except.ok (),
    createAddons := Except.ok (),
    generateExportsRes := fun _ => Except.ok (),
    preRenderRes := fun _ => Except.ok (),
    genIdPreserve := fun _ _ => "preserved",
    genId := genIdW,
    renderRes := fun _ => Except.ok "code",
    generateBundleRes := Except.ok (),
    generateBundleMutate := fun b => b,
    contextParse := fun _ => true,
    pluginFinaliseRes := Except.ok () }

/-- Witness for claim C6 at a concrete input: in the all-successful run over
`okEnv`, the export-generation event (trace index 4) precedes the pre-render
event (index 5), and the identity-assignment event (index 6) precedes the
render event (index 8). -/
theorem pipeline_phase_ordering_witness : (4 : Nat) < 5 ∧ (6 : Nat) < 8 :=
  ⟨(pipeline_phase_ordering okEnv 4 5 0 0).1 (by decide) (by decide),
   (pipeline_phase_ordering okEnv 6 8 0 0).2 (by decide) (by decide)⟩

theorem generateBody_no_renderError (env : PipelineEnv) (e : GenError) :
    Event.renderErrorHook e ∉ (generateBody env).1 := by
  intro hmem
  have h := (generateBody_seg env).2 _ hmem
  simp [rank] at h

/-- Claim C4: if, after a successful `renderStart`, any pipeline step inside
the `try` block (chunk generation, multi-chunk validation, addon creation,
export generation, pre-render, identity assignment, rendering — steps 2–7)
fails, `generate` invokes the `renderError` notification carrying the
original failure value after the events already produced and then re-raises
that same failure; no bundle is returned to the caller on this path. -/
theorem generation_error_notification (env : PipelineEnv) (e : GenError)
    (_hstart : env.renderStart = Except.ok ())
    (hfail : (generateBody env).2 = Except.error e) :
    generate env =
      ((generateBody env).1 ++ [Event.renderErrorHook e], Except.error e) := by
  unfold generate
  rcases hgb : generateBody env with ⟨t, r⟩
  rw [hgb] at hfail
  have hr : r = Except.error e := hfail
  subst hr
  rfl

/-- An environment failing at addon creation. -/
def envAddonsFail : PipelineEnv :=
  { okEnv with createAddons := Except.error (GenError.externalFailure 7) }

/-- Witness for claim C4 at a concrete input: with addon creation failing,
`generate` appends the `renderError` notification and re-raises the
failure. -/
theorem generation_error_notification_witness :
    generate envAddonsFail =
      ((generateBody envAddonsFail).1 ++
        [Event.renderErrorHook (GenError.externalFailure 7)],
       Except.error (GenError.externalFailure 7)) :=
  generation_error_notification envAddonsFail (GenError.externalFailure 7) rfl (by decide)

/-- Claim C2 (amended): for multi-chunk builds, the configuration conflicts
(UMD/IIFE format, a fixed `output.file`, a `sourcemapFile`) are detected
right after `generateChunks` returns — that is, after the chunks have been
constructed and linked and the facades generated — and before addon creation,
export generation, pre-rendering, identity assignment, or any rendering; the
conflict aborts generation (after the `renderError` notification). -/
theorem multi_chunk_conflict_detection (env : PipelineEnv)
    (t : Trace) (chunks : List Chunk) (e : GenError)
    (hstart : env.renderStart = Except.ok ())
    (hchunks : runGenerateChunks env = (t, Except.ok chunks))
    (hlen : chunks.length > 1)
    (hval : (validateOptionsForMultiChunkOutput env.cfg).2 = Except.error e) :
    generate env =
      (Event.renderStartHook ::
        (t ++ [Event.validateStep, Event.renderErrorHook e]),
       Except.error e) := by
  have hbody : generateBody env =
      (Event.renderStartHook :: (t ++ [Event.validateStep]), Except.error e) := by
    unfold generateBody
    rw [hstart, hchunks]
    simp only [step, runValidate, if_pos hlen, hval]
    simp
  unfold generate
  rw [hbody]
  simp

/-- The automatic-mode config with the IIFE output format. -/
def cfgIife : Config :=
  { cfgAuto with format := OutputFormat.iife }

/-- An IIFE-format environment whose partition yields two chunks. -/
def envC2 : PipelineEnv :=
  { okEnv with cfg := cfgIife, getChunkAssignments := gcaPerEntry }

/-- Counterexample to claim C2 as stated: with `output.format = "iife"` and a
partition producing two chunks, the configuration conflict does abort
generation, but only after the chunks have been generated and linked — the
trace contains the chunk-construction and link events — contradicting
“detected before any chunk is generated and before any chunk work
begins”. -/
theorem multi_chunk_conflict_not_preflight_cex :
    (generate envC2).2
        = Except.error (GenError.invalidOption "output.format" "outputformat")
    ∧ Event.chunkCreated 0 ∈ (generate envC2).1
    ∧ Event.linkChunk 1 ∈ (generate envC2).1 :=
  ⟨by decide, by decide, by decide⟩

/-- Witness for claim C2 (amended) at a concrete input: over `envC2` the
whole run is the start notification, the chunk construction and link events,
the validation step, and the `renderError` notification for the
format-conflict error. -/
theorem multi_chunk_conflict_detection_witness :
    generate envC2 =
      (Event.renderStartHook ::
        ([Event.chunkCreated 0, Event.chunkCreated 1,
          Event.linkChunk 0, Event.linkChunk 1]
          ++ [Event.validateStep,
              Event.renderErrorHook
                (GenError.invalidOption "output.format" "outputformat")]),
       Except.error (GenError.invalidOption "output.format" "outputformat")) :=
  multi_chunk_conflict_detection envC2
    [Event.chunkCreated 0, Event.chunkCreated 1, Event.linkChunk 0, Event.linkChunk 1]
    [chA, chB] (GenError.invalidOption "output.format" "outputformat")
    rfl (by decide) (by decide) (by decide)

/-- An environment whose generation-start notification fails. -/
def envStartFail : PipelineEnv :=
  { okEnv with renderStart := Except.error (GenError.externalFailure 1) }

/-- Counterexample to claim C10 as stated: a failure of the generation-start
notification (`renderStart`, pipeline step 1 — not one of steps 2–7) also
triggers the `renderError` notification: the run below performs no step-2–7
work, yet its trace ends in the notification.  So the error notification does
not cover only failures arising in steps 2–7. -/
theorem render_error_covers_step_one_cex :
    envStartFail.renderStart = Except.error (GenError.externalFailure 1)
    ∧ generate envStartFail =
      ([Event.renderStartHook, Event.renderErrorHook (GenError.externalFailure 1)],
       Except.error (GenError.externalFailure 1)) :=
  ⟨rfl, by decide⟩

/-- Claim C10 (amended): a failure of the post-generation `generateBundle`
extension point, or of the final asset finalisation, propagates to the caller
without any `renderError` notification; the `renderError` notification covers
failures arising in steps 1–7 (the generation-start notification included),
not only steps 2–7. -/
theorem post_generation_failures_skip_render_error (env : PipelineEnv)
    (t : Trace) (b : Bundle) (e : GenError)
    (hok : generateBody env = (t, Except.ok b)) :
    (env.generateBundleRes = Except.error e →
      (generate env).2 = Except.error e ∧
        ∀ e1, Event.renderErrorHook e1 ∉ (generate env).1)
    ∧ (env.generateBundleRes = Except.ok () → env.pluginFinaliseRes = Except.error e →
      (generate env).2 = Except.error e ∧
        ∀ e1, Event.renderErrorHook e1 ∉ (generate env).1) := by
  have hnore : ∀ e1, Event.renderErrorHook e1 ∉ t := by
    intro e1
    have h := generateBody_no_renderError env e1
    rw [hok] at h
    exact h
  constructor
  · intro hgb
    have hge : generate env = (t ++ [Event.generateBundleHook], Except.error e) := by
      unfold generate
      rw [hok, hgb]
    rw [hge]
    refine ⟨rfl, ?_⟩
    intro e1 hmem
    rcases List.mem_append.mp hmem with h | h
    · exact hnore e1 h
    · rcases List.mem_singleton.mp h with h2
      exact Event.noConfusion h2
  · intro hgb hpf
    have hge : generate env =
        (t ++ [Event.generateBundleHook, Event.finaliseAssetsStep], Except.error e) := by
      unfold generate
      rw [hok, hgb, hpf]
    rw [hge]
    refine ⟨rfl, ?_⟩
    intro e1 hmem
    rcases List.mem_append.mp hmem with h | h
    · exact hnore e1 h
    · rcases List.mem_cons.mp h with h2 | h3
      · exact Event.noConfusion h2
      · rcases List.mem_singleton.mp h3 with h4
        exact Event.noConfusion h4

/-- An environment whose `generateBundle` hook fails. -/
def envBundleHookFail : PipelineEnv :=
  { okEnv with generateBundleRes := Except.error (GenError.externalFailure 2) }

/-- Witness for claim C10 (amended) at a concrete input: with the
`generateBundle` hook failing, generation fails with that error and no
`renderError` notification appears in the trace. -/
theorem post_generation_failures_skip_render_error_witness :
    (generate envBundleHookFail).2 = Except.error (GenError.externalFailure 2)
    ∧ Event.renderErrorHook (GenError.externalFailure 2) ∉ (generate envBundleHookFail).1 := by
  have h := (post_generation_failures_skip_render_error envBundleHookFail
    [Event.renderStartHook, Event.chunkCreated 0, Event.linkChunk 0, Event.createAddonsStep,
     Event.generateExportsStep 0, Event.preRenderStep 0, Event.assignIdStep 0,
     Event.reservePlaceholderStep 0, Event.renderChunkStep 0]
    [("chunk", { fileType := some FileType.chunk, code := some "code" })]
    (GenError.externalFailure 2) (by decide)).1 rfl
  exact ⟨h.1, h.2 _⟩

theorem finaliseAssetsLoop_spec (validate : Bool) (parseOk : String → Bool) :
    ∀ (bundle : Bundle),
      (finaliseAssetsLoop validate parseOk bundle).1
          = bundle.map (fun kf => (kf.1, (finaliseFile validate parseOk kf.2).1))
      ∧ (finaliseAssetsLoop validate parseOk bundle).2
          = bundle.flatMap (fun kf => (finaliseFile validate parseOk kf.2).2) := by
  intro bundle
  induction bundle with
  | nil => exact ⟨rfl, rfl⟩
  | cons kf rest ih =>
    exact ⟨by simp [finaliseAssetsLoop, ih.1], by simp [finaliseAssetsLoop, ih.2]⟩

theorem finaliseFile_isSome (validate : Bool) (parseOk : String → Bool) (f : OutFile) :
    ((finaliseFile validate parseOk f).1).fileType.isSome = true := by
  cases hf : f.fileType <;> simp [finaliseFile, hf]

/-- Claim C9: the final accumulator validation never aborts generation: an
entry lacking a recognized artifact kind is coerced to asset kind (its other
fields kept) and a deprecation notice goes to the warning channel; with
`output.validate` set, an entry whose code fails the syntax self-check only
adds a warning to the warning channel; every entry of the resulting
accumulator carries a recognized kind; and on the success path `generate`
still returns the validated accumulator. -/
theorem finalise_assets_never_aborts (validate : Bool) (parseOk : String → Bool)
    (bundle : Bundle) (env : PipelineEnv) (t : Trace) (b : Bundle) :
    (∀ kf ∈ (finaliseAssetsLoop validate parseOk bundle).1, kf.2.fileType.isSome = true)
    ∧ (∀ kf ∈ bundle, kf.2.fileType = none →
        (kf.1, ({ fileType := some FileType.asset, code := kf.2.code } : OutFile))
            ∈ (finaliseAssetsLoop validate parseOk bundle).1
          ∧ Warning.deprecatedDirectAssignment
              ∈ (finaliseAssetsLoop validate parseOk bundle).2)
    ∧ (∀ kf ∈ bundle, ∀ c, validate = true → kf.2.code = some c → parseOk c = false →
        Warning.chunkInvalid ∈ (finaliseAssetsLoop validate parseOk bundle).2)
    ∧ (generateBody env = (t, Except.ok b) → env.generateBundleRes = Except.ok () →
        env.pluginFinaliseRes = Except.ok () →
        (generate env).2 = Except.ok
          (finaliseAssetsLoop env.cfg.validate env.contextParse
            (env.generateBundleMutate b)).1) := by
  have hspec := finaliseAssetsLoop_spec validate parseOk bundle
  refine ⟨?_, ?_, ?_, ?_⟩
  · intro kf hm
    rw [hspec.1] at hm
    rcases List.mem_map.mp hm with ⟨kf0, _, rfl⟩
    exact finaliseFile_isSome validate parseOk kf0.2
  · intro kf hm hnone
    constructor
    · rw [hspec.1]
      refine List.mem_map.mpr ⟨kf, hm, ?_⟩
      simp [finaliseFile, hnone]
    · rw [hspec.2]
      refine List.mem_flatMap.mpr ⟨kf, hm, ?_⟩
      simp [finaliseFile, hnone]
  · intro kf hm c hv hc hp
    rw [hspec.2]
    refine List.mem_flatMap.mpr ⟨kf, hm, ?_⟩
    cases hf : kf.2.fileType <;> simp [finaliseFile, hf, hc, hv, hp]
  · intro hok hgb hpf
    unfold generate
    rw [hok, hgb, hpf]

/-- A syntax self-check accepting exactly the code `ok`. -/
def parseOkW : String → Bool := fun s => s == "ok"

/-- A bundle holding a legacy direct-assignment entry with invalid code and a
proper chunk entry. -/
def bundleW9 : Bundle :=
  [("legacy", { fileType := none, code := some "bad" }),
   ("c", { fileType := some FileType.chunk, code := some "ok" })]

/-- Witness for claim C9 at a concrete input: the legacy entry of `bundleW9`
is coerced to asset kind with a deprecation notice, its invalid code only
yields a warning, and the all-successful run over `okEnv` still returns its
accumulator. -/
theorem finalise_assets_never_aborts_witness :
    (("legacy", ({ fileType := some FileType.asset, code := some "bad" } : OutFile))
        ∈ (finaliseAssetsLoop true parseOkW bundleW9).1)
    ∧ Warning.deprecatedDirectAssignment ∈ (finaliseAssetsLoop true parseOkW bundleW9).2
    ∧ Warning.chunkInvalid ∈ (finaliseAssetsLoop true parseOkW bundleW9).2
    ∧ (generate okEnv).2 = Except.ok
        (finaliseAssetsLoop okEnv.cfg.validate okEnv.contextParse
          (okEnv.generateBundleMutate
            [("chunk", { fileType := some FileType.chunk, code := some "code" })])).1 := by
  have h := finalise_assets_never_aborts true parseOkW bundleW9 okEnv
    [Event.renderStartHook, Event.chunkCreated 0, Event.linkChunk 0, Event.createAddonsStep,
     Event.generateExportsStep 0, Event.preRenderStep 0, Event.assignIdStep 0,
     Event.reservePlaceholderStep 0, Event.renderChunkStep 0]
    [("chunk", { fileType := some FileType.chunk, code := some "code" })]
  have h2 := h.2.1 ("legacy", { fileType := none, code := some "bad" }) (by decide) rfl
  exact ⟨h2.1, h2.2,
    h.2.2.1 ("legacy", { fileType := none, code := some "bad" }) (by decide) "bad"
      rfl rfl (by decide),
    h.2.2.2 (by decide) rfl rfl⟩

end Rollup
